import Mathlib

/-!
Verification of `buildshapeify.py`, a build-time content-generation tool that
merges material description files (`.nl2mat`, XML trees) with templates and
generates companion scene-object files (`.nl2sco`) by literal placeholder
substitution.

The development shallowly embeds the script's core functions:
`with_tc_info_from` (XML tree graft), `transform_to_dst_file` (output filename
resolution), `get_sco_replacements` / `process_group_files` (replacement-map
construction), `with_applied_placeholders` (literal token substitution),
`copy_files` / `create_nl2scos` (file operations and error containment), and
`RunGroup.from_path_content` (group source selection).

Modelling conventions:
- Python strings are Lean `String`s; `str.replace` is embedded character by
  character (`pyReplace` / `pyStrReplace`).
- `pathlib` paths are component lists (`List String`), with the final filename
  kept separate where filename surgery happens (`PurePath`).
- `xml.etree.ElementTree` trees are the inductive `Elem`.
- Python `dict[str, str]` values are association lists with unique keys,
  preserving insertion order (`dictSet` / `dictGet`).
- A Python exception that is not caught is an `Except.error`; a function that
  cannot raise has a plain (non-`Except`) result type.
- The filesystem and the outcome of OS-level copy operations are abstracted
  into an environment `Env`; logging calls are reified as `LogEvent` values.
-/

namespace Buildshapeify

/-! ### Python string primitives -/

/-- Tests that `pat` starts the character list `s`; used to locate literal
occurrences of a pattern for the embedding of Python `str.replace`. -/
def lPre : List Char → List Char → Bool
  | [], _ => true
  | _ :: _, [] => false
  | a :: p, b :: s => a == b && lPre p s

/-- Tests that `pat` occurs contiguously somewhere in `s`
(Python `pat in s`). -/
def occursIn (pat : List Char) : List Char → Bool
  | [] => lPre pat []
  | c :: s => lPre pat (c :: s) || occursIn pat s

theorem lPre_length_le (pat s : List Char) (h : lPre pat s = true) :
    pat.length ≤ s.length := by
  induction pat generalizing s with
  | nil => simp
  | cons a p ih =>
    cases s with
    | nil => simp [lPre] at h
    | cons b t =>
      simp only [lPre, Bool.and_eq_true] at h
      simpa using ih t h.2

theorem lPre_nil_iff (pat : List Char) : lPre pat [] = true ↔ pat = [] := by
  cases pat <;> simp [lPre]

theorem lPre_iff_append (pat s : List Char) :
    lPre pat s = true ↔ ∃ t, s = pat ++ t := by
  induction pat generalizing s with
  | nil => simp [lPre]
  | cons a p ih =>
    cases s with
    | nil =>
      simp [lPre]
    | cons b t =>
      simp only [lPre, Bool.and_eq_true, beq_iff_eq, ih, List.cons_append,
        List.cons.injEq]
      constructor
      · rintro ⟨rfl, u, rfl⟩
        exact ⟨u, rfl, rfl⟩
      · rintro ⟨u, rfl, rfl⟩
        exact ⟨rfl, u, rfl⟩

theorem lPre_append_self (pat t : List Char) : lPre pat (pat ++ t) = true :=
  (lPre_iff_append pat _).mpr ⟨t, rfl⟩

theorem lPre_head_mem {a c : Char} {p s : List Char}
    (h : lPre (a :: p) (c :: s) = true) : a = c := by
  simp only [lPre, Bool.and_eq_true, beq_iff_eq] at h
  exact h.1

/-- Left-to-right single-pass literal replacement of a pattern in a character
list: the core of Python `str.replace` for a nonempty pattern (replaced text
is not rescanned). -/
def pyReplace (pat rep : List Char) (s : List Char) : List Char :=
  if h : lPre pat s = true ∧ pat ≠ [] then
    rep ++ pyReplace pat rep (s.drop pat.length)
  else
    match s with
    | [] => []
    | c :: s' => c :: pyReplace pat rep s'
termination_by s.length
decreasing_by
  · have hle := lPre_length_le _ _ h.1
    have hpos : 0 < pat.length := List.length_pos.mpr h.2
    simp only [List.length_drop]
    omega
  · simp

theorem pyReplace_nil (pat rep : List Char) : pyReplace pat rep [] = [] := by
  rw [pyReplace]
  split
  · rename_i h
    exact absurd ((lPre_nil_iff pat).mp h.1) h.2
  · rfl

theorem pyReplace_pos (pat rep s : List Char) (h1 : lPre pat s = true)
    (h2 : pat ≠ []) :
    pyReplace pat rep s = rep ++ pyReplace pat rep (s.drop pat.length) := by
  rw [pyReplace, dif_pos ⟨h1, h2⟩]

theorem pyReplace_neg (pat rep : List Char) (c : Char) (s' : List Char)
    (h : ¬(lPre pat (c :: s') = true ∧ pat ≠ [])) :
    pyReplace pat rep (c :: s') = c :: pyReplace pat rep s' := by
  rw [pyReplace, dif_neg h]

theorem pyReplace_match (pat rep t : List Char) (h2 : pat ≠ []) :
    pyReplace pat rep (pat ++ t) = rep ++ pyReplace pat rep t := by
  rw [pyReplace_pos pat rep _ (lPre_append_self pat t) h2, List.drop_left]

/-- If the pattern does not occur in `s`, replacement is the identity. -/
theorem pyReplace_of_not_occurs (pat rep s : List Char)
    (h : occursIn pat s = false) : pyReplace pat rep s = s := by
  induction s with
  | nil => exact pyReplace_nil pat rep
  | cons c s' ih =>
    simp only [occursIn, Bool.or_eq_false_iff] at h
    rw [pyReplace_neg pat rep c s' (by simp [h.1]), ih h.2]

/-- Fuel-indexed version of `pyReplace`, used only to evaluate concrete
instances by kernel reduction (the two agree when the fuel covers the
input's length). -/
def pyReplaceFuel (pat rep : List Char) : Nat → List Char → List Char
  | _, [] => []
  | 0, s => s
  | n + 1, c :: s =>
    if lPre pat (c :: s) = true ∧ pat ≠ [] then
      rep ++ pyReplaceFuel pat rep n ((c :: s).drop pat.length)
    else
      c :: pyReplaceFuel pat rep n s

theorem pyReplaceFuel_eq (pat rep : List Char) :
    ∀ (n : Nat) (s : List Char), s.length ≤ n →
      pyReplaceFuel pat rep n s = pyReplace pat rep s := by
  intro n
  induction n with
  | zero =>
    intro s hlen
    have hs : s = [] := List.length_eq_zero.mp (Nat.le_zero.mp hlen)
    subst hs
    rw [pyReplace_nil]
    rfl
  | succ n ih =>
    intro s hlen
    cases s with
    | nil =>
      rw [pyReplace_nil]
      rfl
    | cons c s' =>
      by_cases hcond : lPre pat (c :: s') = true ∧ pat ≠ []
      · have hstep : pyReplaceFuel pat rep (n + 1) (c :: s') =
            rep ++ pyReplaceFuel pat rep n ((c :: s').drop pat.length) := by
          simp only [pyReplaceFuel]
          rw [if_pos hcond]
        have hdlen : ((c :: s').drop pat.length).length ≤ n := by
          have hple : 0 < pat.length := List.length_pos.mpr hcond.2
          simp only [List.length_drop, List.length_cons]
          simp only [List.length_cons] at hlen
          omega
        rw [hstep, pyReplace_pos _ _ _ hcond.1 hcond.2, ih _ hdlen]
      · have hstep : pyReplaceFuel pat rep (n + 1) (c :: s') =
            c :: pyReplaceFuel pat rep n s' := by
          simp only [pyReplaceFuel]
          rw [if_neg hcond]
        have hslen : s'.length ≤ n := by
          simp only [List.length_cons] at hlen
          omega
        rw [hstep, pyReplace_neg _ _ _ _ hcond, ih _ hslen]

/-- Rewrites `pyReplace` to its fuel-indexed equivalent for kernel
evaluation of concrete instances. -/
theorem pyReplace_eval (pat rep s : List Char) :
    pyReplace pat rep s = pyReplaceFuel pat rep s.length s :=
  (pyReplaceFuel_eq pat rep s.length s (le_refl _)).symm

/-- Full Python `str.replace` on character lists, including the empty-pattern
case (`''.join` interleaving): `'ab'.replace('', '-') = '-a-b-'`. -/
def pyStrReplace (s pat rep : List Char) : List Char :=
  if pat = [] then rep ++ (s.map (fun c => c :: rep)).flatten
  else pyReplace pat rep s

theorem pyStrReplace_of_ne (s pat rep : List Char) (h : pat ≠ []) :
    pyStrReplace s pat rep = pyReplace pat rep s := by
  rw [pyStrReplace, if_neg h]

/-- Python `str.replace` at the `String` level. -/
def pyStrReplaceS (s pat rep : String) : String :=
  String.mk (pyStrReplace s.data pat.data rep.data)

/-- Python `pat in s` at the `String` level. -/
def occursInS (pat s : String) : Bool := occursIn pat.data s.data

theorem pyStrReplaceS_of_not_occurs (s pat rep : String)
    (h : occursInS pat s = false) : pyStrReplaceS s pat rep = s := by
  have hne : pat.data ≠ [] := by
    intro hnil
    rw [occursInS, hnil] at h
    cases s with
    | mk d =>
      cases d <;> simp [occursIn, lPre] at h
  cases s with
  | mk d =>
    rw [pyStrReplaceS, pyStrReplace_of_ne _ _ _ hne,
      pyReplace_of_not_occurs _ _ _ h]

/-! ### Python path and filename helpers -/

/-- Python `pathlib.PurePath.suffix` of a filename: the substring from the
last dot, when that dot is neither the first nor the last character of the
name; otherwise the empty string. -/
def pySuffix (cs : List Char) : List Char :=
  let n := cs.length
  let k := cs.reverse.findIdx (· == '.')
  if k < n ∧ 1 ≤ k ∧ k + 2 ≤ n then cs.drop (n - 1 - k) else []

/-- Python `PurePath.with_suffix` on a filename: strip the current suffix and
append the new one (`name[: -len(old)] + suffix` when a suffix exists, else
`name + suffix`; both are `take (n - len(old)) ++ suffix`). -/
def pyWithSuffix (cs sfx : List Char) : List Char :=
  cs.take (cs.length - (pySuffix cs).length) ++ sfx

/-- Python `PurePath.stem` of a filename: the name with its suffix removed. -/
def pyStem (cs : List Char) : List Char :=
  cs.take (cs.length - (pySuffix cs).length)

/-- String-level `PurePath.with_suffix`. -/
def pyWithSuffixS (name sfx : String) : String :=
  String.mk (pyWithSuffix name.data sfx.data)

/-- String-level `PurePath.stem`. -/
def pyStemS (name : String) : String := String.mk (pyStem name.data)

/-- Python `str.capitalize`: first character upper-cased, the rest
lower-cased. -/
def pyCapitalize (s : String) : String :=
  match s.data with
  | [] => ""
  | c :: rest => String.mk (c.toUpper :: rest.map Char.toLower)

/-- Tests that `pat` ends the character list `s`; the embedding of matching
a `*.suffix` glob pattern against a filename. -/
def lSuf (pat s : List Char) : Bool := lPre pat.reverse s.reverse

/-- String-level suffix test. -/
def endsWithS (s pat : String) : Bool := lSuf pat.data s.data

/-- Groups of a path-valued string delimited by `/`. -/
def splitOnSlash : List Char → List (List Char)
  | [] => [[]]
  | c :: rest =>
    match splitOnSlash rest with
    | [] => [[]]
    | g :: gs => if c == '/' then [] :: g :: gs else (c :: g) :: gs

/-- Splits a path-valued string on `/` into its nonempty components,
mirroring how `pathlib` normalizes a string joined onto a path. -/
def splitPath (s : String) : List String :=
  ((splitOnSlash s.data).map String.mk).filter fun t => t ≠ ""

/-- Python `PurePath.as_posix` of a component list (a path with no components
renders as `.`, as `pathlib` does for a fully-relativized path). -/
def joinPosix (parts : List String) : String :=
  if parts = [] then "." else String.intercalate "/" parts

/-- A `pathlib` path split into the directory components and the final
filename, on which `with_name` / `with_suffix` operate. -/
structure PurePath where
  dir : List String
  name : String
deriving DecidableEq, Repr

/-- Full component list of a `PurePath` (its `parts`). -/
def PurePath.toPath (p : PurePath) : List String := p.dir ++ [p.name]

/-- Embeds `transform_to_dst_file` (buildshapeify.py lines 146-155): renames
the template file by literally replacing `replace_string` with
`replaced_name` in its filename (`with_name` of `name.replace(...)`), forces
the suffix with `with_suffix`, and re-roots the final component into
`dst_path` (`dst_path / new_file_path.parts[-1]`). -/
def transform_to_dst_file (template_file : PurePath)
    (replace_string replaced_name suffix : String)
    (dst_path : List String) : PurePath :=
  let step1 : PurePath :=
    { template_file with
      name := pyStrReplaceS template_file.name replace_string replaced_name }
  let step2 : PurePath := { step1 with name := pyWithSuffixS step1.name suffix }
  { dir := dst_path, name := step2.name }

/-! ### XML element trees -/

/-- An `xml.etree.ElementTree` element: tag, attributes, text, children.
Serialization details (whitespace, self-closing tags) are immaterial to the
claims and simplified in `Elem.tostring`. -/
inductive Elem where
  | node (tag : String) (attrs : List (String × String)) (text : String)
      (children : List Elem)
deriving Repr

def Elem.tag : Elem → String
  | .node t _ _ _ => t

def Elem.attrs : Elem → List (String × String)
  | .node _ a _ _ => a

def Elem.text : Elem → String
  | .node _ _ x _ => x

def Elem.children : Elem → List Elem
  | .node _ _ _ c => c

/-- Children of `e` whose tag is `t`: one step of an `ElementTree` path
query. -/
def childrenTagged (t : String) (e : Elem) : List Elem :=
  e.children.filter (fun c => c.tag == t)

/-- Embeds `findall('./material/renderpass/texunit')` on a parsed tree whose
root element is `root`: all texture-unit nodes in document order. -/
def findTexunits (root : Elem) : List Elem :=
  (childrenTagged "material" root).flatMap fun m =>
    (childrenTagged "renderpass" m).flatMap fun r =>
      childrenTagged "texunit" r

/-- Embeds `find('./material/renderpass/texunit')`: the first matching node
in document order, or `none` (Python `None`) when the path is absent. -/
def findFirstTexunit (root : Elem) : Option Elem :=
  (findTexunits root).head?

/-- Embeds `findall('./sceneobject/' + t)` used on scene-object documents. -/
def findSceneobject (t : String) (root : Elem) : List Elem :=
  (childrenTagged "sceneobject" root).flatMap fun s => childrenTagged t s

/-- Appends `cs` after the existing children of one texture-unit node
(`texunit.append(tc_entry)` over the fragment's entries). -/
def graftU (cs : List Elem) (u : Elem) : Elem :=
  .node u.tag u.attrs u.text (u.children ++ cs)

/-- Applies `graftU cs` to every `texunit` child of a render-pass node. -/
def graftR (cs : List Elem) (r : Elem) : Elem :=
  .node r.tag r.attrs r.text
    (r.children.map fun u => if u.tag == "texunit" then graftU cs u else u)

/-- Applies `graftR cs` to every `renderpass` child of a material node. -/
def graftM (cs : List Elem) (m : Elem) : Elem :=
  .node m.tag m.attrs m.text
    (m.children.map fun r => if r.tag == "renderpass" then graftR cs r else r)

/-- Appends `cs` to the child list of every node matched by
`./material/renderpass/texunit`; the structural effect of the graft loop in
`with_tc_info_from` (buildshapeify.py lines 170-174). -/
def appendToTexunits (cs : List Elem) (root : Elem) : Elem :=
  .node root.tag root.attrs root.text
    (root.children.map fun m => if m.tag == "material" then graftM cs m else m)

/-- Embeds `with_tc_info_from` (buildshapeify.py lines 163-175). The source
deep-copies the material tree, looks up the template's first
render-pass/texture-unit node, and appends that node's children to every
texture-unit of the copy. When the template path is absent, `find` returns
`None` and the inner `for tc_entry in template_texunit` raises `TypeError` as
soon as the material has a texture-unit to process; with no texture-units the
loop body never runs and the unchanged copy is returned. The template file's
`ElementTree.parse` result is passed in as `template_tree`. -/
def with_tc_info_from (template_tree : Elem) (nl2mat_tree : Elem) :
    Except String Elem :=
  match findFirstTexunit template_tree with
  | some t => .ok (appendToTexunits t.children nl2mat_tree)
  | none =>
      match findTexunits nl2mat_tree with
      | [] => .ok nl2mat_tree
      | _ :: _ => .error "TypeError: NoneType object is not iterable"

/-- Models running the graft twice against the same original material tree,
as the orchestrator does when several material templates are configured.
Because `with_tc_info_from` deep-copies its input (`copy.deepcopy`, line 166)
before mutating, the second call receives the original unchanged; the pure
embedding reflects exactly that. -/
def graft_twice (nl2mat_tree template1 template2 : Elem) :
    Except String Elem × Except String Elem :=
  (with_tc_info_from template1 nl2mat_tree,
   with_tc_info_from template2 nl2mat_tree)

/-! ### Structural lemmas about the graft -/

theorem filter_map_ite (l : List Elem) (t : String) (h : Elem → Elem)
    (hh : ∀ e, (h e).tag = e.tag) :
    (l.map fun e => if e.tag == t then h e else e).filter
        (fun e => e.tag == t) =
      (l.filter fun e => e.tag == t).map h := by
  induction l with
  | nil => rfl
  | cons e l ih =>
    by_cases he : (e.tag == t) = true
    · have he' : ((h e).tag == t) = true := by rw [hh e]; exact he
      simp only [List.map_cons, List.filter_cons, he, if_true, he',
        List.map_cons, ih]
    · simp only [List.map_cons, List.filter_cons, he, Bool.false_eq_true,
      if_false, ih]

theorem childrenTagged_appendToTexunits (cs : List Elem) (root : Elem) :
    childrenTagged "material" (appendToTexunits cs root) =
      (childrenTagged "material" root).map (graftM cs) := by
  unfold childrenTagged appendToTexunits
  simp only [Elem.children]
  exact filter_map_ite root.children "material" (graftM cs) (fun e => rfl)

theorem childrenTagged_graftM (cs : List Elem) (m : Elem) :
    childrenTagged "renderpass" (graftM cs m) =
      (childrenTagged "renderpass" m).map (graftR cs) := by
  unfold childrenTagged graftM
  simp only [Elem.children]
  exact filter_map_ite m.children "renderpass" (graftR cs) (fun e => rfl)

theorem childrenTagged_graftR (cs : List Elem) (r : Elem) :
    childrenTagged "texunit" (graftR cs r) =
      (childrenTagged "texunit" r).map (graftU cs) := by
  unfold childrenTagged graftR
  simp only [Elem.children]
  exact filter_map_ite r.children "texunit" (graftU cs) (fun e => rfl)

theorem texunits_append (cs : List Elem) (root : Elem) :
    findTexunits (appendToTexunits cs root) =
      (findTexunits root).map (graftU cs) := by
  unfold findTexunits
  rw [childrenTagged_appendToTexunits, List.flatMap_map]
  simp only [childrenTagged_graftM, childrenTagged_graftR, List.flatMap_map,
    ← List.map_flatMap]

/-- C1: Graft additivity. For every material document `M` and template `T`
whose first render-pass/texture-unit node `t` exists, the graft succeeds and
at every texture-unit node of `M` the child list of the result equals the
node's original children followed by the children of `t`; hence every
texture-unit's child count grows by exactly `t.children.length`. -/
theorem c1_graft_additivity (M T t : Elem)
    (h : findFirstTexunit T = some t) :
    with_tc_info_from T M = .ok (appendToTexunits t.children M) ∧
    findTexunits (appendToTexunits t.children M) =
      (findTexunits M).map (fun u =>
        Elem.node u.tag u.attrs u.text (u.children ++ t.children)) ∧
    (findTexunits (appendToTexunits t.children M)).map
        (fun u => u.children.length) =
      (findTexunits M).map (fun u => u.children.length + t.children.length) := by
  refine ⟨?_, texunits_append _ _, ?_⟩
  · unfold with_tc_info_from
    rw [h]
  · rw [texunits_append, List.map_map]
    refine List.map_congr_left fun u hu => ?_
    simp [graftU, Elem.children]

/-- Concrete material document used in witnesses: two texture-units, the
first holding one `map` reference. -/
def matM : Elem :=
  .node "root" [] "" [.node "material" [] "" [.node "renderpass" [] ""
    [.node "texunit" [] "" [.node "map" [] "metal.png" []],
     .node "texunit" [] "" []]]]

/-- Concrete template fragment child. -/
def texA : Elem := .node "tcV" [] "1.5" []

/-- Concrete material template whose first texture-unit holds `texA`. -/
def tmplT : Elem :=
  .node "root" [] "" [.node "material" [] "" [.node "renderpass" [] ""
    [.node "texunit" [] "" [texA]]]]

theorem c1_graft_additivity_witness :
    findFirstTexunit tmplT = some (Elem.node "texunit" [] "" [texA]) ∧
    (with_tc_info_from tmplT matM =
        .ok (appendToTexunits [texA] matM) ∧
      findTexunits (appendToTexunits [texA] matM) =
        (findTexunits matM).map (fun u =>
          Elem.node u.tag u.attrs u.text (u.children ++ [texA])) ∧
      (findTexunits (appendToTexunits [texA] matM)).map
          (fun u => u.children.length) =
        (findTexunits matM).map (fun u => u.children.length + 1)) :=
  ⟨by rfl, c1_graft_additivity matM tmplT (Elem.node "texunit" [] "" [texA])
    (by rfl)⟩

/-- C2: Non-mutation. `with_tc_info_from` deep-copies the input material
document, so running the graft with a second template against the same
original yields a result determined by the original and the second template
alone: its texture-unit children are the original children followed by the
second template's fragment, independent of the first template used. -/
theorem c2_non_mutation (M T1 T2 t2 : Elem)
    (h : findFirstTexunit T2 = some t2) :
    (graft_twice M T1 T2).2 = .ok (appendToTexunits t2.children M) ∧
    (∀ T1' : Elem, (graft_twice M T1 T2).2 = (graft_twice M T1' T2).2) ∧
    findTexunits (appendToTexunits t2.children M) =
      (findTexunits M).map (fun u =>
        Elem.node u.tag u.attrs u.text (u.children ++ t2.children)) := by
  refine ⟨?_, fun T1' => rfl, texunits_append _ _⟩
  show with_tc_info_from T2 M = _
  unfold with_tc_info_from
  rw [h]

/-- A second concrete template with a different fragment. -/
def texB : Elem := .node "tcW" [] "0.25" []

/-- Concrete material template whose first texture-unit holds `texB`. -/
def tmplU : Elem :=
  .node "root" [] "" [.node "material" [] "" [.node "renderpass" [] ""
    [.node "texunit" [] "" [texB]]]]

theorem c2_non_mutation_witness :
    findFirstTexunit tmplU = some (Elem.node "texunit" [] "" [texB]) ∧
    ((graft_twice matM tmplT tmplU).2 =
        .ok (appendToTexunits [texB] matM) ∧
      (graft_twice matM tmplT tmplU).2 =
        (graft_twice matM matM tmplU).2 ∧
      findTexunits (appendToTexunits [texB] matM) =
        (findTexunits matM).map (fun u =>
          Elem.node u.tag u.attrs u.text (u.children ++ [texB]))) :=
  ⟨by rfl,
   (c2_non_mutation matM tmplT tmplU (Elem.node "texunit" [] "" [texB])
     (by rfl)).1,
   (c2_non_mutation matM tmplT tmplU (Elem.node "texunit" [] "" [texB])
     (by rfl)).2.1 matM,
   (c2_non_mutation matM tmplT tmplU (Elem.node "texunit" [] "" [texB])
     (by rfl)).2.2⟩

/-- A template with no `material/renderpass/texunit` path. -/
def tmplBad : Elem := .node "root" [] "" [.node "material" [] "" []]

/-- C8 counterexample: with the fixed path absent from the template and a
material document that does have a texture-unit, the graft does not proceed
silently — it raises (`TypeError`, from iterating `None`), contradicting the
claim that it does not raise. -/
theorem c8_counterexample :
    findFirstTexunit tmplBad = none ∧
    with_tc_info_from tmplBad matM =
      .error "TypeError: NoneType object is not iterable" := by
  exact ⟨rfl, rfl⟩

/-- C8 (amended): when the fixed render-pass/texture-unit path is absent from
the template, the graft raises an uncaught `TypeError` (Python iterates
`None`) for every material document with at least one texture-unit, and only
for a material with no texture-units does it silently return the unchanged
copy; in neither case is a `MalformedTemplate` error identifying the missing
path produced. -/
theorem c8_malformed_template (T M : Elem) (h : findFirstTexunit T = none) :
    (findTexunits M ≠ [] →
      with_tc_info_from T M =
        .error "TypeError: NoneType object is not iterable") ∧
    (findTexunits M = [] → with_tc_info_from T M = .ok M) := by
  constructor
  · intro hM
    unfold with_tc_info_from
    rw [h]
    cases hM' : findTexunits M with
    | nil => exact absurd hM' hM
    | cons a l => rfl
  · intro hM
    unfold with_tc_info_from
    rw [h, hM]

/-- A material document with no texture-units. -/
def matEmpty : Elem := .node "root" [] "" [.node "material" [] "" []]

theorem c8_malformed_template_witness :
    findFirstTexunit tmplBad = none ∧
    (findTexunits matM ≠ [] ∧
      with_tc_info_from tmplBad matM =
        .error "TypeError: NoneType object is not iterable") ∧
    (findTexunits matEmpty = [] ∧
      with_tc_info_from tmplBad matEmpty = .ok matEmpty) :=
  ⟨by rfl,
   ⟨fun h => List.cons_ne_nil _ _ h,
    (c8_malformed_template tmplBad matM (by rfl)).1
      fun h => List.cons_ne_nil _ _ h⟩,
   ⟨by rfl,
    (c8_malformed_template tmplBad matEmpty (by rfl)).2 (by rfl)⟩⟩

/-! ### Python dicts as insertion-ordered association lists -/

/-- Python `d[k] = v` on a `dict[str, str]` with unique keys: update the
entry in place when the key exists (insertion order kept), else append. -/
def dictSet : List (String × String) → String → String →
    List (String × String)
  | [], k, v => [(k, v)]
  | p :: rest, k, v =>
      if p.1 == k then (k, v) :: rest else p :: dictSet rest k v

/-- Python `d[k]` (as an `Option`). -/
def dictGet (d : List (String × String)) (k : String) : Option String :=
  (d.find? fun p => p.1 == k).map fun p => p.2

theorem dictGet_dictSet_self (d : List (String × String)) (k v : String) :
    dictGet (dictSet d k v) k = some v := by
  induction d with
  | nil => simp [dictSet, dictGet]
  | cons q rest ih =>
    by_cases hq : (q.1 == k) = true
    · simp [dictSet, dictGet, hq]
    · simp only [dictSet, hq, Bool.false_eq_true, if_false]
      simp only [dictGet, List.find?_cons, hq] at ih ⊢
      exact ih

theorem dictGet_dictSet_ne (d : List (String × String)) (k k' v : String)
    (h : (k' == k) = false) :
    dictGet (dictSet d k v) k' = dictGet d k' := by
  have hkk : (k == k') = false := by
    simp only [beq_eq_false_iff_ne] at h ⊢
    exact fun he => h he.symm
  induction d with
  | nil => simp [dictSet, dictGet, List.find?_cons, hkk]
  | cons q rest ih =>
    by_cases hq : (q.1 == k) = true
    · have hq' : (q.1 == k') = false := by
        simp only [beq_iff_eq] at hq
        rw [hq]
        exact hkk
      simp [dictSet, dictGet, List.find?_cons, hq, hq', hkk]
    · simp only [dictSet, hq, Bool.false_eq_true, if_false]
      by_cases hq2 : (q.1 == k') = true
      · simp [dictGet, List.find?_cons, hq2]
      · simp only [dictGet, List.find?_cons, hq2] at ih ⊢
        exact ih

/-! ### Environment, logging and file operations -/

/-- A reified logging call. -/
inductive LogEvent where
  | info (msg : String)
  | warn (msg : String)
deriving DecidableEq, Repr

/-- The ambient filesystem and operating system, abstracted: text-file reads
(`open`/`read`), XML parses (`ElementTree.parse`), and whether a given copy
(`shutil.copy`) fails with an exception. `none` models the raised exception
for reads and parses. -/
structure Env where
  textFile : List String → Option String
  xmlFile : List String → Option Elem
  copyFails : List String → List String → Bool

/-- Embeds `copy_files` (buildshapeify.py lines 127-143): for every
`(src, dst)` pair an info line is logged and the copy attempted; a failing
copy (`OSError` or any other exception) is caught, logged as a skip, and the
loop continues with the remaining pairs. The plain (non-`Except`) result type
embeds that no exception escapes this function. -/
def copy_files (env : Env)
    (src_dst_list : List (List String × List String)) : List LogEvent :=
  src_dst_list.flatMap fun pr =>
    LogEvent.info ("copying " ++ joinPosix pr.1 ++ " to " ++ joinPosix pr.2) ::
      (if env.copyFails pr.1 pr.2 then
        [LogEvent.warn ("skipped " ++ joinPosix pr.1 ++
          ", since the file cannot be accessed")]
      else [])

/-- Embeds `read_content_of` (lines 121-124): `open` + `read`. An unreadable
file raises `OSError`; the function itself catches nothing. -/
def read_content_of (env : Env) (template_file : List String) :
    Except String String :=
  match env.textFile template_file with
  | some content => .ok content
  | none => .error ("OSError: cannot read " ++ joinPosix template_file)

/-- The replacement fold of `with_applied_placeholders` (lines 183-184):
`content = content.replace(placeholder, replacement)` over the dict items in
insertion order. -/
def applyReplacements (content : String)
    (replacements : List (String × String)) : String :=
  replacements.foldl (fun acc pr => pyStrReplaceS acc pr.1 pr.2) content

/-- Embeds `with_applied_placeholders` (lines 178-185): read the template
text, then apply the replacement table. A read failure propagates. -/
def with_applied_placeholders (env : Env) (template_file : List String)
    (replacements : List (String × String)) : Except String String :=
  (read_content_of env template_file).map fun content =>
    applyReplacements content replacements

/-- Embeds `create_nl2scos` (lines 188-204): for each scene-object template,
substitute placeholders into its text and emit the output file (name derived
by `transform_to_dst_file` with token `[sco]` and the capitalized material
name). There is no exception handling here: a failing template read inside
`with_applied_placeholders` propagates out, abandoning the remaining
templates of this call. -/
def create_nl2scos (env : Env) (sco_templates : List PurePath)
    (placeholders_replacements : List (String × String))
    (material_name : String) (dst_path : List String) :
    Except String (List LogEvent × List (List String × String)) :=
  match sco_templates with
  | [] => .ok ([], [])
  | sco_template :: rest => do
    let content ← with_applied_placeholders env sco_template.toPath
      placeholders_replacements
    let dst_nl2sco := transform_to_dst_file sco_template "[sco]"
      (pyCapitalize material_name) ".nl2sco" dst_path
    let (logs, outs) ← create_nl2scos env rest placeholders_replacements
      material_name dst_path
    .ok (LogEvent.info ("creating " ++ joinPosix dst_nl2sco.toPath) :: logs,
      (dst_nl2sco.toPath, content) :: outs)

/-- Embeds `get_referenced_textures` (lines 207-209):
`findall('./material/renderpass/texunit/map')`, yielding each node's text in
document order. -/
def get_referenced_textures (nl2mat_tree : Elem) : List String :=
  ((findTexunits nl2mat_tree).flatMap fun u => childrenTagged "map" u).map
    Elem.text

/-- The template loop of `handle_materials` (lines 225-236): per material
template, derive the output name (`[mat]` replaced by the bracketed material
name, suffix `.nl2mat`), parse the template and graft it onto the material
tree. A parse failure or the graft's `TypeError` propagates. -/
def handle_materials_templates (env : Env) (nl2mat_tree : Elem)
    (tc_templates : List PurePath) (material_name : String)
    (dst_path : List String) :
    Except String (List LogEvent × List (List String × Elem)) :=
  match tc_templates with
  | [] => .ok ([], [])
  | template_file :: rest => do
    let dst_nl2mat := transform_to_dst_file template_file "[mat]"
      ("[" ++ material_name ++ "]") ".nl2mat" dst_path
    let template_tree ← match env.xmlFile template_file.toPath with
      | some template_tree => Except.ok template_tree
      | none =>
          Except.error ("ParseError: " ++ joinPosix template_file.toPath)
    let grafted ← with_tc_info_from template_tree nl2mat_tree
    let (logs, outs) ← handle_materials_templates env nl2mat_tree rest
      material_name dst_path
    .ok (LogEvent.info ("creating " ++ joinPosix dst_nl2mat.toPath) :: logs,
      (dst_nl2mat.toPath, grafted) :: outs)

/-- Embeds `handle_materials` (lines 212-236): parse the material file (a
failure propagates), copy its referenced textures — source rooted at the
material's directory, destination at the materials output root, same
relative path — with failures contained inside `copy_files`, then write one
grafted material document per material template. -/
def handle_materials (env : Env) (nl2mat_file : PurePath)
    (tc_templates : List PurePath) (material_name : String)
    (dst_path : List String) :
    Except String (List LogEvent × List (List String × Elem)) :=
  match env.xmlFile nl2mat_file.toPath with
  | none => .error ("ParseError: " ++ joinPosix nl2mat_file.toPath)
  | some nl2mat_tree =>
    let texture_copies := (get_referenced_textures nl2mat_tree).map
      fun texture =>
        (nl2mat_file.dir ++ splitPath texture, dst_path ++ splitPath texture)
    let logs := copy_files env texture_copies
    (handle_materials_templates env nl2mat_tree tc_templates material_name
      dst_path).map fun pr => (logs ++ pr.1, pr.2)

/-! ### Scene-object replacement map and group processing -/

/-- Attribute rendering for `Elem.tostring`. -/
def attrsString : List (String × String) → String
  | [] => ""
  | pr :: rest => " " ++ pr.1 ++ "=\x22" ++ pr.2 ++ "\x22" ++ attrsString rest

mutual

/-- Simplified `ElementTree.tostring(e, encoding='unicode')`: tag, attributes,
text and serialized children. Exact XML formatting (self-closing tags,
whitespace) is immaterial to every claim; what matters is that user-color
nodes are serialized and joined verbatim. -/
def Elem.tostring : Elem → String
  | .node t a x c =>
      "<" ++ t ++ attrsString a ++ ">" ++ x ++ tostringList c ++
        "</" ++ t ++ ">"

/-- Serialization of a child list for `Elem.tostring`. -/
def tostringList : List Elem → String
  | [] => ""
  | e :: rest => Elem.tostring e ++ tostringList rest

end

/-- Python `PurePath.relative_to`: strip `base` when its components are a
prefix of `p`, else raise `ValueError`. -/
def relative_to (p base : List String) : Except String (List String) :=
  if base.isPrefixOf p then .ok (p.drop base.length) else .error "ValueError"

/-- The initial replacement table (lines 240-245): the four recognized
tokens, all mapped to the empty string. -/
def baseReplacements : List (String × String) :=
  [("{preview}", ""), ("{original_usercolors}", ""),
   ("{scale_settings}", ""), ("{material_name}", "")]

/-- Embeds `get_sco_replacements` (lines 239-263). With no scene-object file
the defaults are returned. Otherwise the file is parsed
(`ElementTree.parse`; a failure propagates). When a `./sceneobject/preview`
node exists, its referenced image is scheduled for copy (source rooted at
the scene-object file's directory, destination under `preview_dst`), the
destination file is expressed relative to `sco_dst`
(`relative_to` raises `ValueError` — uncaught — when it is not relative),
and the preview token is set to a `<preview>` wrapper around the POSIX-form
relative path. Then all `./sceneobject/usercolor` nodes are serialized and,
when present, joined with newlines into the user-colors token. Returns the
table together with the reified copy log. -/
def get_sco_replacements (env : Env) (nl2sco_file : Option PurePath)
    (preview_dst sco_dst : List String) :
    Except String (List (String × String) × List LogEvent) :=
  match nl2sco_file with
  | none => .ok (baseReplacements, [])
  | some f =>
    match env.xmlFile f.toPath with
    | none => .error ("ParseError: " ++ joinPosix f.toPath)
    | some sco_tree => do
      let (replacements, logs) ←
        match (findSceneobject "preview" sco_tree).head? with
        | some preview => do
          let preview_src_file := f.dir ++ splitPath preview.text
          let preview_dst_file := preview_dst ++ splitPath preview.text
          let logs := copy_files env [(preview_src_file, preview_dst_file)]
          let rel ← relative_to preview_dst_file sco_dst
          let preview_text := joinPosix rel
          Except.ok (dictSet baseReplacements "{preview}"
            ("<preview>" ++ preview_text ++ "</preview>"), logs)
        | none => Except.ok (baseReplacements, ([] : List LogEvent))
      let usercolors :=
        (findSceneobject "usercolor" sco_tree).map Elem.tostring
      if usercolors ≠ [] then
        .ok (dictSet replacements "{original_usercolors}"
          (String.intercalate "\n" usercolors), logs)
      else
        .ok (replacements, logs)

/-- Embeds line 277, `sco_replacements['{material_name}'] = material_name`:
the per-material replacement table passed to `create_nl2scos`. Each loop
iteration overwrites the same key of the shared dict, so the table one
material sees is the group table with exactly this one assignment applied. -/
def material_replacements (sco_replacements : List (String × String))
    (material_name : String) : List (String × String) :=
  dictSet sco_replacements "{material_name}" material_name

/-- The per-material loop of `process_group_files` (lines 273-280): for each
material file, derive the material name from the file's stem, run
`handle_materials`, stamp the name into the shared replacement table, and
run `create_nl2scos`. Any uncaught exception aborts the remaining
materials. -/
def process_materials (env : Env)
    (sco_replacements : List (String × String))
    (mat_tc_templates : List PurePath) (mat_dst : List String)
    (sco_templates : List PurePath) (sco_dst : List String) :
    List PurePath →
      Except String (List LogEvent × List (List String × Elem) ×
        List (List String × String))
  | [] => .ok ([], [], [])
  | mat_file :: rest => do
    let material_name := pyStemS mat_file.name
    let (logs1, mats1) ← handle_materials env mat_file mat_tc_templates
      material_name mat_dst
    let scos1 ← create_nl2scos env sco_templates
      (material_replacements sco_replacements material_name) material_name
      sco_dst
    let (logsR, matsR, scosR) ← process_materials env sco_replacements
      mat_tc_templates mat_dst sco_templates sco_dst rest
    .ok (logs1 ++ scos1.1 ++ logsR, mats1 ++ matsR, scos1.2 ++ scosR)

/-- Embeds `process_group_files` (lines 266-280): build the scene-object
replacement table once per group, then process each material of the group
in order. -/
def process_group_files (env : Env) (nl2mat_files : List PurePath)
    (mat_tc_templates : List PurePath) (mat_dst : List String)
    (nl2sco_file : Option PurePath) (sco_templates : List PurePath)
    (sco_dst preview_dst : List String) :
    Except String (List LogEvent × List (List String × Elem) ×
      List (List String × String)) := do
  let (sco_replacements, logs0) ← get_sco_replacements env nl2sco_file
    preview_dst sco_dst
  let (logs, mats, scos) ← process_materials env sco_replacements
    mat_tc_templates mat_dst sco_templates sco_dst nl2mat_files
  .ok (logs0 ++ logs, mats, scos)

/-- A run group (lines 43-46): an optional scene-object source file and the
material files of one directory. -/
structure RunGroup where
  nl2sco_file : Option PurePath
  nl2mat_files : List PurePath
deriving DecidableEq, Repr

/-- Embeds `RunGroup.from_path_content` (lines 48-61): glob the directory
for `*.nl2sco` files in listing order, pick the first as the group source,
log a warning when more than one matched, and collect the `*.nl2mat` files.
The directory is given as its ordered file listing. -/
def RunGroup.from_path_content (dir_files : List PurePath) :
    RunGroup × List LogEvent :=
  let nl2sco_files := dir_files.filter fun f => endsWithS f.name ".nl2sco"
  let nl2sco_file := nl2sco_files.head?
  let warnings :=
    if 1 < nl2sco_files.length then
      [LogEvent.warn "Found more than one nl2sco file in the directory"]
    else []
  let nl2mat_files := dir_files.filter fun f => endsWithS f.name ".nl2mat"
  ({ nl2sco_file := nl2sco_file, nl2mat_files := nl2mat_files }, warnings)

/-! ### Claims C4 and C5 -/

/-- C4: Replacement-map defaults. With no source scene-object,
`get_sco_replacements` yields exactly the four recognized tokens all mapped
to the empty string; stamping in the material name (line 277) with name
`"Red"` yields the four tokens with only the material-name token set to
`"Red"`; and the material-name token of the table a material sees is always
the provided material's name. -/
theorem c4_replacement_defaults :
    (∀ (env : Env) (preview_dst sco_dst : List String),
      get_sco_replacements env none preview_dst sco_dst =
        .ok (baseReplacements, [])) ∧
    material_replacements baseReplacements "Red" =
      [("{preview}", ""), ("{original_usercolors}", ""),
       ("{scale_settings}", ""), ("{material_name}", "Red")] ∧
    (∀ (sco_replacements : List (String × String)) (material_name : String),
      dictGet (material_replacements sco_replacements material_name)
        "{material_name}" = some material_name) :=
  ⟨fun _ _ _ => rfl, by decide,
   fun sr n => dictGet_dictSet_self sr _ n⟩

/-- C5: Filename resolution. `transform_to_dst_file` replaces every literal
occurrence of the match token in the template's filename (never touching its
directory), forces the suffix, and places the result directly inside the
destination directory; when the match token is absent the filename is
returned unchanged except for suffix and directory (a silent no-op); and the
concrete example resolves `base[mat]tail.xml` to `dest/base[Red]tail.nl2mat`. -/
theorem c5_filename_resolution :
    (∀ (template_file : PurePath)
        (match_token replacement_token suffix : String)
        (dst_path : List String),
      (transform_to_dst_file template_file match_token replacement_token
          suffix dst_path).dir = dst_path ∧
      (transform_to_dst_file template_file match_token replacement_token
          suffix dst_path).name =
        pyWithSuffixS
          (pyStrReplaceS template_file.name match_token replacement_token)
          suffix ∧
      (∀ other_dir : List String,
        transform_to_dst_file template_file match_token replacement_token
            suffix dst_path =
          transform_to_dst_file
            { dir := other_dir, name := template_file.name }
            match_token replacement_token suffix dst_path)) ∧
    (∀ (template_file : PurePath)
        (match_token replacement_token suffix : String)
        (dst_path : List String),
      occursInS match_token template_file.name = false →
      transform_to_dst_file template_file match_token replacement_token
          suffix dst_path =
        { dir := dst_path,
          name := pyWithSuffixS template_file.name suffix }) ∧
    transform_to_dst_file
        { dir := ["templates"], name := "base[mat]tail.xml" }
        "[mat]" "[Red]" ".nl2mat" ["dest"] =
      { dir := ["dest"], name := "base[Red]tail.nl2mat" } := by
  refine ⟨fun t m r sfx d => ⟨rfl, rfl, fun d' => rfl⟩, ?_, ?_⟩
  · intro t m r sfx d h
    unfold transform_to_dst_file
    rw [pyStrReplaceS_of_not_occurs _ _ _ h]
  · have hname :
        pyWithSuffixS (pyStrReplaceS "base[mat]tail.xml" "[mat]" "[Red]")
          ".nl2mat" = "base[Red]tail.nl2mat" := by
      set_option maxRecDepth 4000 in
        simp [pyStrReplaceS, pyStrReplace, pyReplace, lPre]
      decide
    unfold transform_to_dst_file
    exact congrArg (fun nm => PurePath.mk ["dest"] nm) hname

theorem c5_filename_resolution_witness :
    occursInS "[mat]" "plainname.xml" = false ∧
    transform_to_dst_file { dir := ["templates"], name := "plainname.xml" }
        "[mat]" "[Red]" ".nl2mat" ["dest"] =
      { dir := ["dest"], name := pyWithSuffixS "plainname.xml" ".nl2mat" } :=
  ⟨by decide,
   c5_filename_resolution.2.1
     { dir := ["templates"], name := "plainname.xml" }
     "[mat]" "[Red]" ".nl2mat" ["dest"] (by decide)⟩

/-! ### Claim C3: failure containment -/

/-- A scene-object template whose text is readable in `envC3`. -/
def tmplGood : PurePath := { dir := ["templates"], name := "[sco] good.xml" }

/-- A scene-object template whose read fails in `envC3`. -/
def tmplBadRead : PurePath := { dir := ["templates"], name := "[sco] bad.xml" }

/-- Environment in which only `tmplGood` is readable and every copy fails. -/
def envC3 : Env :=
  { textFile := fun p =>
      if p = tmplGood.toPath then some "name: {material_name}" else none
  , xmlFile := fun _ => none
  , copyFails := fun _ _ => true }

/-- C3 counterexample: a single failing template read inside
`create_nl2scos` is not logged-and-skipped — it propagates as an uncaught
exception (`Except.error`), so the remaining, perfectly readable template of
the same call produces no output artifact. This refutes the claim that every
template read failure is contained. -/
theorem c3_counterexample :
    envC3.textFile tmplGood.toPath = some "name: {material_name}" ∧
    create_nl2scos envC3 [tmplBadRead, tmplGood] baseReplacements "red"
        ["out"] =
      .error "OSError: cannot read templates/[sco] bad.xml" := by
  constructor
  · decide
  · rfl

/-- C3 (amended): copy failures are contained — `copy_files` cannot raise
(its result type carries no exception), it attempts every pair regardless of
failures of earlier pairs, and each failing pair is logged as a skip — so no
single failing texture/preview copy prevents other copies or other
materials' artifacts. Template read failures, however, are not contained:
inside `create_nl2scos` they propagate as an uncaught exception, aborting
that call's remaining templates. -/
theorem c3_failure_containment :
    (∀ (env : Env) (pairs : List (List String × List String))
        (pr : List String × List String), pr ∈ pairs →
      LogEvent.info ("copying " ++ joinPosix pr.1 ++ " to " ++
        joinPosix pr.2) ∈ copy_files env pairs) ∧
    (∀ (env : Env) (pairs : List (List String × List String))
        (pr : List String × List String), pr ∈ pairs →
      env.copyFails pr.1 pr.2 = true →
      LogEvent.warn ("skipped " ++ joinPosix pr.1 ++
        ", since the file cannot be accessed") ∈ copy_files env pairs) ∧
    (∀ (env : Env) (replacements : List (String × String))
        (material_name : String) (dst_path : List String)
        (t : PurePath) (rest : List PurePath),
      env.textFile t.toPath = none →
      create_nl2scos env (t :: rest) replacements material_name dst_path =
        .error ("OSError: cannot read " ++ joinPosix t.toPath)) := by
  refine ⟨?_, ?_, ?_⟩
  · intro env pairs pr hpr
    exact List.mem_flatMap.mpr ⟨pr, hpr, List.mem_cons_self _ _⟩
  · intro env pairs pr hpr hfail
    refine List.mem_flatMap.mpr ⟨pr, hpr, ?_⟩
    simp [hfail]
  · intro env replacements material_name dst_path t rest h
    unfold create_nl2scos with_applied_placeholders read_content_of
    rw [h]
    rfl

/-- Environment for the C3 witness: the only pair's copy fails. -/
def envC3W : Env :=
  { textFile := fun _ => none
  , xmlFile := fun _ => none
  , copyFails := fun _ _ => true }

theorem c3_failure_containment_witness :
    ((["in", "a.png"], ["out", "a.png"]) ∈
        [((["in", "a.png"], ["out", "a.png"]) :
          List String × List String)] ∧
      LogEvent.info "copying in/a.png to out/a.png" ∈
        copy_files envC3W [(["in", "a.png"], ["out", "a.png"])]) ∧
    (envC3W.copyFails ["in", "a.png"] ["out", "a.png"] = true ∧
      LogEvent.warn "skipped in/a.png, since the file cannot be accessed" ∈
        copy_files envC3W [(["in", "a.png"], ["out", "a.png"])]) ∧
    (envC3W.textFile tmplGood.toPath = none ∧
      create_nl2scos envC3W [tmplGood] baseReplacements "red" ["out"] =
        .error "OSError: cannot read templates/[sco] good.xml") :=
  ⟨⟨List.mem_cons_self _ _,
    c3_failure_containment.1 envC3W _ _ (List.mem_cons_self _ _)⟩,
   ⟨rfl,
    c3_failure_containment.2.1 envC3W _ _ (List.mem_cons_self _ _) rfl⟩,
   ⟨rfl,
    c3_failure_containment.2.2 envC3W baseReplacements "red" ["out"]
      tmplGood [] rfl⟩⟩

/-! ### Claims C6 and C10: the preview token and the relative-path error -/

/-- C6: Preview token value. Whenever the source scene-object has a preview
reference and the destination preview file path is relative to the
destination scene-object directory, `get_sco_replacements` succeeds and sets
the preview token to a `<preview>` wrapper whose path value is the
destination preview file path expressed relative to the destination
scene-object directory, in POSIX forward-slash form. -/
theorem c6_preview_token (env : Env) (f : PurePath)
    (sco_tree preview : Elem) (preview_dst sco_dst : List String)
    (hparse : env.xmlFile f.toPath = some sco_tree)
    (hfind : (findSceneobject "preview" sco_tree).head? = some preview)
    (hrel : sco_dst.isPrefixOf (preview_dst ++ splitPath preview.text) =
      true) :
    ∀ (d : List (String × String)) (logs : List LogEvent),
      get_sco_replacements env (some f) preview_dst sco_dst =
        .ok (d, logs) →
      dictGet d "{preview}" =
        some ("<preview>" ++
          joinPosix ((preview_dst ++ splitPath preview.text).drop
            sco_dst.length) ++ "</preview>") := by
  intro d logs h
  unfold get_sco_replacements at h
  dsimp only at h
  rw [hparse] at h
  dsimp only at h
  rw [hfind] at h
  unfold relative_to at h
  dsimp only at h
  rw [if_pos hrel] at h
  simp only [bind, Except.bind] at h
  by_cases hu :
      ((findSceneobject "usercolor" sco_tree).map Elem.tostring) ≠ []
  · rw [if_pos hu] at h
    simp only [Except.ok.injEq, Prod.mk.injEq] at h
    obtain ⟨hd, -⟩ := h
    subst hd
    rw [dictGet_dictSet_ne _ _ _ _ (by decide)]
    exact dictGet_dictSet_self _ _ _
  · rw [if_neg hu] at h
    simp only [Except.ok.injEq, Prod.mk.injEq] at h
    obtain ⟨hd, -⟩ := h
    subst hd
    exact dictGet_dictSet_self _ _ _

/-- The scene-object document of the spec's concrete example: preview
reference `img/preview.jpg`. -/
def scoTreeW : Elem :=
  .node "root" [] "" [.node "sceneobject" [] ""
    [.node "preview" [] "img/preview.jpg" []]]

/-- Path of the scene-object source file in the witness environment. -/
def scoFileW : PurePath := { dir := ["srcgrp"], name := "object.nl2sco" }

/-- Witness environment: parsing `scoFileW` yields `scoTreeW`; copies
succeed. -/
def envW : Env :=
  { textFile := fun _ => none
  , xmlFile := fun p => if p = scoFileW.toPath then some scoTreeW else none
  , copyFails := fun _ _ => false }

theorem c6_preview_token_witness :
    envW.xmlFile scoFileW.toPath = some scoTreeW ∧
    (findSceneobject "preview" scoTreeW).head? =
      some (Elem.node "preview" [] "img/preview.jpg" []) ∧
    (["out"] : List String).isPrefixOf
      (["out", "previews"] ++ splitPath "img/preview.jpg") = true ∧
    get_sco_replacements envW (some scoFileW) ["out", "previews"] ["out"] =
      .ok ([("{preview}", "<preview>previews/img/preview.jpg</preview>"),
            ("{original_usercolors}", ""), ("{scale_settings}", ""),
            ("{material_name}", "")],
           [LogEvent.info
             "copying srcgrp/img/preview.jpg to out/previews/img/preview.jpg"]) ∧
    dictGet [("{preview}", "<preview>previews/img/preview.jpg</preview>"),
             ("{original_usercolors}", ""), ("{scale_settings}", ""),
             ("{material_name}", "")] "{preview}" =
      some ("<preview>" ++
        joinPosix (((["out", "previews"] : List String) ++
          splitPath "img/preview.jpg").drop
            (["out"] : List String).length) ++ "</preview>") :=
  ⟨by rfl, by rfl, by decide, by rfl,
   c6_preview_token envW scoFileW scoTreeW
     (Elem.node "preview" [] "img/preview.jpg" []) ["out", "previews"]
     ["out"] (by rfl) (by rfl) (by decide) _ _ (by rfl)⟩

/-- The token value of the C6 example is indeed
`previews/img/preview.jpg` in forward-slash form. -/
theorem preview_relative_path_example :
    joinPosix (((["out", "previews"] : List String) ++
      splitPath "img/preview.jpg").drop 1) = "previews/img/preview.jpg" := by
  decide

/-- Scene-object tree for the C10 counterexample: preview reference
`b/c.jpg`. -/
def scoTreeX : Elem :=
  .node "root" [] "" [.node "sceneobject" [] ""
    [.node "preview" [] "b/c.jpg" []]]

/-- Path of the scene-object source file in the C10 counterexample. -/
def scoFileX : PurePath := { dir := ["srcgrp"], name := "object.nl2sco" }

/-- Environment for the C10 counterexample. -/
def envX : Env :=
  { textFile := fun _ => none
  , xmlFile := fun p => if p = scoFileX.toPath then some scoTreeX else none
  , copyFails := fun _ _ => false }

/-- C10 counterexample: the destination preview directory `a` is not located
inside the destination scene-object directory `a/b`, yet with preview
reference `b/c.jpg` the relative-path computation is performed on the full
destination preview file path `a/b/c.jpg`, which is relative to `a/b` — so
`get_sco_replacements` succeeds instead of raising. The claim's antecedent
holds while its consequent fails. -/
theorem c10_counterexample :
    (["a", "b"] : List String).isPrefixOf ["a"] = false ∧
    get_sco_replacements envX (some scoFileX) ["a"] ["a", "b"] =
      .ok ([("{preview}", "<preview>c.jpg</preview>"),
            ("{original_usercolors}", ""), ("{scale_settings}", ""),
            ("{material_name}", "")],
           [LogEvent.info "copying srcgrp/b/c.jpg to a/b/c.jpg"]) := by
  constructor
  · decide
  · rfl

/-- C10 (amended): the relative-path computation raises precisely when the
destination scene-object directory is not a component prefix of the
destination preview *file* path (preview directory joined with the preview
reference) — in particular whenever the reference is a bare filename and the
preview directory is not inside the scene-object directory. The `ValueError`
is uncaught: it propagates out of `get_sco_replacements` and aborts the
whole `process_group_files` call for the group. -/
theorem c10_relative_error (env : Env) (f : PurePath)
    (sco_tree preview : Elem) (preview_dst sco_dst : List String)
    (hparse : env.xmlFile f.toPath = some sco_tree)
    (hfind : (findSceneobject "preview" sco_tree).head? = some preview)
    (hrel : sco_dst.isPrefixOf (preview_dst ++ splitPath preview.text) =
      false) :
    get_sco_replacements env (some f) preview_dst sco_dst =
      .error "ValueError" ∧
    (∀ (nl2mat_files mat_tc_templates : List PurePath)
        (mat_dst : List String) (sco_templates : List PurePath),
      process_group_files env nl2mat_files mat_tc_templates mat_dst (some f)
        sco_templates sco_dst preview_dst = .error "ValueError") := by
  have h1 : get_sco_replacements env (some f) preview_dst sco_dst =
      .error "ValueError" := by
    unfold get_sco_replacements
    dsimp only
    rw [hparse]
    dsimp only
    rw [hfind]
    unfold relative_to
    dsimp only
    rw [if_neg (by simp [hrel])]
    rfl
  refine ⟨h1, fun a b c d => ?_⟩
  unfold process_group_files
  rw [h1]
  rfl

/-- Scene-object tree for the C10 witness: a bare-filename preview
reference. -/
def scoTreeY : Elem :=
  .node "root" [] "" [.node "sceneobject" [] ""
    [.node "preview" [] "c.jpg" []]]

/-- Path of the scene-object source file in the C10 witness. -/
def scoFileY : PurePath := { dir := ["srcgrp"], name := "object.nl2sco" }

/-- Environment for the C10 witness. -/
def envY : Env :=
  { textFile := fun _ => none
  , xmlFile := fun p => if p = scoFileY.toPath then some scoTreeY else none
  , copyFails := fun _ _ => false }

theorem c10_relative_error_witness :
    envY.xmlFile scoFileY.toPath = some scoTreeY ∧
    (findSceneobject "preview" scoTreeY).head? =
      some (Elem.node "preview" [] "c.jpg" []) ∧
    (["out"] : List String).isPrefixOf
      (["previews"] ++ splitPath "c.jpg") = false ∧
    (get_sco_replacements envY (some scoFileY) ["previews"] ["out"] =
        .error "ValueError" ∧
      process_group_files envY [{ dir := ["grp"], name := "red.nl2mat" }]
          [] [] (some scoFileY) [] ["out"] ["previews"] =
        .error "ValueError") :=
  ⟨by rfl, by rfl, by decide,
   (c10_relative_error envY scoFileY scoTreeY
     (Elem.node "preview" [] "c.jpg" []) ["previews"] ["out"]
     (by rfl) (by rfl) (by decide)).1,
   (c10_relative_error envY scoFileY scoTreeY
     (Elem.node "preview" [] "c.jpg" []) ["previews"] ["out"]
     (by rfl) (by rfl) (by decide)).2
     [{ dir := ["grp"], name := "red.nl2mat" }] [] [] []⟩

/-! ### Claim C9: group source selection and replacement reuse -/

/-- C9: Group source selection. When a directory holds more than one
candidate scene-object file, exactly the first found is chosen and a warning
is logged (the rest are ignored); `process_group_files` computes the
scene-object replacement table once per group and hands the same table to
every material; and the per-material tables differ only in the
material-name token, which is always the material's stem. -/
theorem c9_group_selection :
    (∀ (dir_files : List PurePath) (f1 f2 : PurePath)
        (rest : List PurePath),
      dir_files.filter (fun f => endsWithS f.name ".nl2sco") =
        f1 :: f2 :: rest →
      (RunGroup.from_path_content dir_files).1.nl2sco_file = some f1 ∧
      (RunGroup.from_path_content dir_files).2 =
        [LogEvent.warn "Found more than one nl2sco file in the directory"]) ∧
    (∀ (env : Env) (nl2sco_file : Option PurePath)
        (preview_dst sco_dst : List String)
        (sr : List (String × String)) (logs0 : List LogEvent)
        (nl2mat_files mat_tc_templates : List PurePath)
        (mat_dst : List String) (sco_templates : List PurePath),
      get_sco_replacements env nl2sco_file preview_dst sco_dst =
        .ok (sr, logs0) →
      process_group_files env nl2mat_files mat_tc_templates mat_dst
          nl2sco_file sco_templates sco_dst preview_dst =
        (process_materials env sr mat_tc_templates mat_dst sco_templates
            sco_dst nl2mat_files).map fun r => (logs0 ++ r.1, r.2)) ∧
    (∀ (sr : List (String × String)) (n1 n2 k : String),
      (k == "{material_name}") = false →
      dictGet (material_replacements sr n1) k =
        dictGet (material_replacements sr n2) k) ∧
    (∀ (sr : List (String × String)) (material_name : String),
      dictGet (material_replacements sr material_name) "{material_name}" =
        some material_name) := by
  refine ⟨?_, ?_, ?_, ?_⟩
  · intro dir_files f1 f2 rest hfilter
    unfold RunGroup.from_path_content
    rw [hfilter]
    refine ⟨rfl, ?_⟩
    dsimp only
    rw [if_pos (by simp [List.length_cons])]
  · intro env nl2sco_file preview_dst sco_dst sr logs0 nl2mat_files
      mat_tc_templates mat_dst sco_templates hsr
    unfold process_group_files
    rw [hsr]
    simp only [bind, Except.bind]
    cases hpm : process_materials env sr mat_tc_templates mat_dst
        sco_templates sco_dst nl2mat_files with
    | error e => rfl
    | ok r =>
      obtain ⟨a, b, c⟩ := r
      rfl
  · intro sr n1 n2 k hk
    rw [material_replacements, material_replacements,
      dictGet_dictSet_ne _ _ _ _ hk, dictGet_dictSet_ne _ _ _ _ hk]
  · intro sr material_name
    exact dictGet_dictSet_self _ _ _

/-- Directory listing for the C9 witness: two scene-object candidates and
two material files. -/
def dirFilesW : List PurePath :=
  [ { dir := ["grp"], name := "red.nl2mat" },
    { dir := ["grp"], name := "obj1.nl2sco" },
    { dir := ["grp"], name := "blue.nl2mat" },
    { dir := ["grp"], name := "obj2.nl2sco" } ]

theorem c9_group_selection_witness :
    (dirFilesW.filter (fun f => endsWithS f.name ".nl2sco") =
      ({ dir := ["grp"], name := "obj1.nl2sco" } : PurePath) ::
        ({ dir := ["grp"], name := "obj2.nl2sco" } : PurePath) :: []) ∧
    ((RunGroup.from_path_content dirFilesW).1.nl2sco_file =
        some { dir := ["grp"], name := "obj1.nl2sco" } ∧
      (RunGroup.from_path_content dirFilesW).2 =
        [LogEvent.warn "Found more than one nl2sco file in the directory"]) ∧
    ((("{preview}" : String) == "{material_name}") = false ∧
      dictGet (material_replacements baseReplacements "red") "{preview}" =
        dictGet (material_replacements baseReplacements "blue")
          "{preview}") :=
  ⟨by decide,
   c9_group_selection.1 dirFilesW
     { dir := ["grp"], name := "obj1.nl2sco" }
     { dir := ["grp"], name := "obj2.nl2sco" } [] (by decide),
   by decide,
   c9_group_selection.2.2.1 baseReplacements "red" "blue" "{preview}"
     (by decide)⟩

/-! ### Claim C7: commutation theory for literal replacement -/

theorem pyReplace_skip (t r v u : List Char) (ht : t ≠ [])
    (hd : ∀ c ∈ v, c ∉ t) :
    pyReplace t r (v ++ u) = v ++ pyReplace t r u := by
  induction v with
  | nil => simp
  | cons c v' ih =>
    have hcond : ¬(lPre t (c :: (v' ++ u)) = true ∧ t ≠ []) := by
      rintro ⟨h1, -⟩
      cases t with
      | nil => exact ht rfl
      | cons a t' =>
        have hac : a = c := lPre_head_mem h1
        refine hd c (List.mem_cons_self c v') ?_
        rw [← hac]
        exact List.mem_cons_self a t'
    rw [List.cons_append, pyReplace_neg _ _ _ _ hcond,
      ih fun x hx => hd x (List.mem_cons_of_mem c hx)]
    rfl

/-- When `w` does not start `s`, no character of the replacement value `r1`
occurs in `w`, and `r1` is nonempty, replacing `t1` by `r1` in `s` cannot
make `w` start the result. -/
theorem lPre_replace_false (t1 r1 : List Char) (hr1 : r1 ≠ []) :
    ∀ (n : Nat) (s w : List Char), s.length ≤ n → w ≠ [] →
      lPre w s = false → (∀ c ∈ r1, c ∉ w) →
      lPre w (pyReplace t1 r1 s) = false := by
  intro n
  induction n with
  | zero =>
    intro s w hlen hw hws hdisj
    have hs : s = [] := List.length_eq_zero.mp (Nat.le_zero.mp hlen)
    subst hs
    rw [pyReplace_nil]
    exact hws
  | succ n ih =>
    intro s w hlen hw hws hdisj
    by_cases hmatch : lPre t1 s = true ∧ t1 ≠ []
    · rw [pyReplace_pos _ _ _ hmatch.1 hmatch.2]
      cases w with
      | nil => exact absurd rfl hw
      | cons a w' =>
        obtain ⟨b, r1', hr⟩ : ∃ b r1', r1 = b :: r1' := by
          cases r1 with
          | nil => exact absurd rfl hr1
          | cons b r1' => exact ⟨b, r1', rfl⟩
        rw [hr, List.cons_append]
        have hab : a ≠ b := by
          intro he
          refine hdisj b ?_ ?_
          · rw [hr]
            exact List.mem_cons_self b r1'
          · rw [← he]
            exact List.mem_cons_self a w'
        simp [lPre, hab]
    · cases s with
      | nil =>
        rw [pyReplace_nil]
        exact hws
      | cons c s' =>
        rw [pyReplace_neg _ _ _ _ hmatch]
        cases w with
        | nil => exact absurd rfl hw
        | cons a w' =>
          by_cases hac : a = c
          · subst hac
            simp only [lPre, beq_self_eq_true, Bool.true_and] at hws ⊢
            cases hw' : w' with
            | nil =>
              rw [hw'] at hws
              simp [lPre] at hws
            | cons e w'' =>
              rw [← hw']
              refine ih s' w' ?_ ?_ hws ?_
              · simpa using Nat.le_of_succ_le_succ hlen
              · rw [hw']
                simp
              · intro x hx hxw
                exact hdisj x hx (List.mem_cons_of_mem a hxw)
          · simp [lPre, hac]

theorem pyReplace_comm_aux (t1 r1 t2 r2 : List Char)
    (ht1 : t1 ≠ []) (ht2 : t2 ≠ []) (hr1 : r1 ≠ []) (hr2 : r2 ≠ [])
    (h12 : ∀ c ∈ t1, c ∉ t2)
    (hr1t2 : ∀ c ∈ r1, c ∉ t2) (hr2t1 : ∀ c ∈ r2, c ∉ t1) :
    ∀ (n : Nat) (s : List Char), s.length ≤ n →
      pyReplace t2 r2 (pyReplace t1 r1 s) =
        pyReplace t1 r1 (pyReplace t2 r2 s) := by
  have h21 : ∀ c ∈ t2, c ∉ t1 := fun c hc hc1 => h12 c hc1 hc
  intro n
  induction n with
  | zero =>
    intro s hlen
    have hs : s = [] := List.length_eq_zero.mp (Nat.le_zero.mp hlen)
    subst hs
    simp [pyReplace_nil]
  | succ n ih =>
    intro s hlen
    by_cases h1 : lPre t1 s = true
    · obtain ⟨u, rfl⟩ := (lPre_iff_append t1 s).mp h1
      have hu : u.length ≤ n := by
        have ht1len : 0 < t1.length := List.length_pos.mpr ht1
        simp only [List.length_append] at hlen
        omega
      calc pyReplace t2 r2 (pyReplace t1 r1 (t1 ++ u))
          = pyReplace t2 r2 (r1 ++ pyReplace t1 r1 u) := by
            rw [pyReplace_match _ _ _ ht1]
        _ = r1 ++ pyReplace t2 r2 (pyReplace t1 r1 u) :=
            pyReplace_skip _ _ _ _ ht2 hr1t2
        _ = r1 ++ pyReplace t1 r1 (pyReplace t2 r2 u) := by rw [ih u hu]
        _ = pyReplace t1 r1 (t1 ++ pyReplace t2 r2 u) :=
            (pyReplace_match _ _ _ ht1).symm
        _ = pyReplace t1 r1 (pyReplace t2 r2 (t1 ++ u)) := by
            rw [pyReplace_skip t2 r2 t1 _ ht2 h12]
    · by_cases h2 : lPre t2 s = true
      · obtain ⟨u, rfl⟩ := (lPre_iff_append t2 s).mp h2
        have hu : u.length ≤ n := by
          have ht2len : 0 < t2.length := List.length_pos.mpr ht2
          simp only [List.length_append] at hlen
          omega
        calc pyReplace t2 r2 (pyReplace t1 r1 (t2 ++ u))
            = pyReplace t2 r2 (t2 ++ pyReplace t1 r1 u) := by
              rw [pyReplace_skip t1 r1 t2 _ ht1 h21]
          _ = r2 ++ pyReplace t2 r2 (pyReplace t1 r1 u) :=
              pyReplace_match _ _ _ ht2
          _ = r2 ++ pyReplace t1 r1 (pyReplace t2 r2 u) := by rw [ih u hu]
          _ = pyReplace t1 r1 (r2 ++ pyReplace t2 r2 u) :=
              (pyReplace_skip _ _ _ _ ht1 hr2t1).symm
          _ = pyReplace t1 r1 (pyReplace t2 r2 (t2 ++ u)) := by
              rw [pyReplace_match _ _ _ ht2]
      · cases s with
        | nil => simp [pyReplace_nil]
        | cons c s' =>
          have hlen' : s'.length ≤ n := by
            simpa using Nat.le_of_succ_le_succ (by simpa using hlen)
          have hb1 : lPre t1 (c :: s') = false := by
            cases hx : lPre t1 (c :: s') with
            | false => rfl
            | true => exact absurd hx h1
          have hb2 : lPre t2 (c :: s') = false := by
            cases hx : lPre t2 (c :: s') with
            | false => rfl
            | true => exact absurd hx h2
          have e1 : pyReplace t1 r1 (c :: s') = c :: pyReplace t1 r1 s' :=
            pyReplace_neg _ _ _ _ fun hh => h1 hh.1
          have e2 : pyReplace t2 r2 (c :: s') = c :: pyReplace t2 r2 s' :=
            pyReplace_neg _ _ _ _ fun hh => h2 hh.1
          have g1 : lPre t2 (pyReplace t1 r1 (c :: s')) = false :=
            lPre_replace_false t1 r1 hr1 (c :: s').length (c :: s') t2
              (le_refl _) ht2 hb2 hr1t2
          have g2 : lPre t1 (pyReplace t2 r2 (c :: s')) = false :=
            lPre_replace_false t2 r2 hr2 (c :: s').length (c :: s') t1
              (le_refl _) ht1 hb1 hr2t1
          rw [e1] at g1
          rw [e2] at g2
          rw [e1, e2,
            pyReplace_neg t2 r2 c _ (fun hh => by rw [g1] at hh; cases hh.1),
            pyReplace_neg t1 r1 c _ (fun hh => by rw [g2] at hh; cases hh.1),
            ih s' hlen']

theorem pyReplace_comm (t1 r1 t2 r2 s : List Char)
    (ht1 : t1 ≠ []) (ht2 : t2 ≠ []) (hr1 : r1 ≠ []) (hr2 : r2 ≠ [])
    (h12 : ∀ c ∈ t1, c ∉ t2)
    (hr1t2 : ∀ c ∈ r1, c ∉ t2) (hr2t1 : ∀ c ∈ r2, c ∉ t1) :
    pyReplace t2 r2 (pyReplace t1 r1 s) =
      pyReplace t1 r1 (pyReplace t2 r2 s) :=
  pyReplace_comm_aux t1 r1 t2 r2 ht1 ht2 hr1 hr2 h12 hr1t2 hr2t1 s.length s
    (le_refl _)

/-- Non-interference of two replacement entries: tokens and replacement
values are nonempty, the two tokens share no character, and neither
replacement value shares a character with the other entry's token. Under
this precondition applying the two entries commutes. -/
def ReplOk (p q : String × String) : Prop :=
  p.1.data ≠ [] ∧ q.1.data ≠ [] ∧ p.2.data ≠ [] ∧ q.2.data ≠ [] ∧
  (∀ c ∈ p.1.data, c ∉ q.1.data) ∧
  (∀ c ∈ p.2.data, c ∉ q.1.data) ∧
  (∀ c ∈ q.2.data, c ∉ p.1.data)

instance (p q : String × String) : Decidable (ReplOk p q) := by
  unfold ReplOk
  infer_instance

theorem ReplOk.symm {p q : String × String} (h : ReplOk p q) : ReplOk q p := by
  obtain ⟨h1, h2, h3, h4, h5, h6, h7⟩ := h
  exact ⟨h2, h1, h4, h3, fun c hc hc' => h5 c hc' hc, h7, h6⟩

theorem pyStrReplaceS_comm (p q : String × String) (h : ReplOk p q)
    (s : String) :
    pyStrReplaceS (pyStrReplaceS s p.1 p.2) q.1 q.2 =
      pyStrReplaceS (pyStrReplaceS s q.1 q.2) p.1 p.2 := by
  obtain ⟨h1, h2, h3, h4, h5, h6, h7⟩ := h
  unfold pyStrReplaceS
  refine congrArg String.mk ?_
  show pyStrReplace (pyStrReplace s.data p.1.data p.2.data) q.1.data q.2.data
    = pyStrReplace (pyStrReplace s.data q.1.data q.2.data) p.1.data p.2.data
  rw [pyStrReplace_of_ne _ _ _ h1, pyStrReplace_of_ne _ _ _ h2,
    pyStrReplace_of_ne _ _ _ h1, pyStrReplace_of_ne _ _ _ h2]
  exact pyReplace_comm p.1.data p.2.data q.1.data q.2.data s.data h1 h2 h3 h4
    h5 h6 h7

theorem applyReplacements_perm_aux (l l' : List (String × String))
    (hperm : l.Perm l') :
    l.Pairwise ReplOk →
      ∀ content, applyReplacements content l = applyReplacements content l' := by
  induction hperm with
  | nil => intro _ _; rfl
  | cons x p ih =>
    intro hpw content
    simp only [applyReplacements, List.foldl_cons]
    exact ih (List.pairwise_cons.mp hpw).2 _
  | swap x y l =>
    intro hpw content
    simp only [applyReplacements, List.foldl_cons]
    rw [pyStrReplaceS_comm y x
      ((List.pairwise_cons.mp hpw).1 x (List.mem_cons_self x l)) content]
  | trans p1 p2 ih1 ih2 =>
    intro hpw content
    rw [ih1 hpw content,
      ih2 ((p1.pairwise_iff (fun hab => hab.symm)).mp hpw) content]

/-- The replacement map of the C7 counterexample. -/
def cexMap : List (String × String) := [("ab", "x"), ("ba", "y")]

/-- The same map with its two entries applied in the opposite order. -/
def cexMapSwapped : List (String × String) := [("ba", "y"), ("ab", "x")]

/-- C7 counterexample: the map satisfies the claim's precondition — no token
is a substring of another token or of any replacement value — and the two
orders are permutations of one another, yet applying the map to `aba` in
the two orders yields different results (`xa` versus `ay`): overlapping
tokens break order independence under the stated precondition. -/
theorem c7_counterexample :
    (∀ p ∈ cexMap, ∀ q ∈ cexMap, p.1 ≠ q.1 → occursInS p.1 q.1 = false) ∧
    (∀ p ∈ cexMap, ∀ q ∈ cexMap, occursInS p.1 q.2 = false) ∧
    cexMap.Perm cexMapSwapped ∧
    applyReplacements "aba" cexMap ≠ applyReplacements "aba" cexMapSwapped := by
  have h1 : applyReplacements "aba" cexMap = "xa" := by
    simp only [applyReplacements, cexMap, List.foldl_cons, List.foldl_nil,
      pyStrReplaceS, pyStrReplace, pyReplace_eval]
    decide
  have h2 : applyReplacements "aba" cexMapSwapped = "ay" := by
    simp only [applyReplacements, cexMapSwapped, List.foldl_cons,
      List.foldl_nil, pyStrReplaceS, pyStrReplace, pyReplace_eval]
    decide
  refine ⟨by decide, by decide, by decide, ?_⟩
  rw [h1, h2]
  decide

/-- C7 (amended): substitution is literal and total — text in which no token
of the map occurs is returned unchanged (in particular unknown tokens in
the template text are left untouched and cause no error) — and the result
is independent of the order in which the map's entries are applied under
the strengthened precondition that the entries are pairwise non-interfering
(`ReplOk`: distinct tokens share no character, no replacement value shares
a character with the other entry's token, tokens and values nonempty). The
claim's substring-freeness precondition is strictly weaker and
insufficient; see the counterexample. -/
theorem c7_substitution :
    (∀ (content : String) (replacements : List (String × String)),
      (∀ p ∈ replacements, occursInS p.1 content = false) →
      applyReplacements content replacements = content) ∧
    (∀ (content : String) (l l' : List (String × String)),
      l.Perm l' → l.Pairwise ReplOk →
      applyReplacements content l = applyReplacements content l') := by
  constructor
  · intro content replacements h
    induction replacements with
    | nil => rfl
    | cons p rest ih =>
      have hstep : pyStrReplaceS content p.1 p.2 = content :=
        pyStrReplaceS_of_not_occurs _ _ _ (h p (List.mem_cons_self p rest))
      show applyReplacements (pyStrReplaceS content p.1 p.2) rest = content
      rw [hstep]
      exact ih fun q hq => h q (List.mem_cons_of_mem p hq)
  · intro content l l' hperm hpw
    exact applyReplacements_perm_aux l l' hperm hpw content

/-- A pairwise non-interfering replacement map for the C7 witness. -/
def okMap : List (String × String) := [("ab", "cd"), ("ef", "gh")]

/-- The witness map with its entries in the opposite order. -/
def okMapSwapped : List (String × String) := [("ef", "gh"), ("ab", "cd")]

theorem c7_substitution_witness :
    ((∀ p ∈ okMap, occursInS p.1 "no tokens here" = false) ∧
      applyReplacements "no tokens here" okMap = "no tokens here") ∧
    (okMap.Perm okMapSwapped ∧ okMap.Pairwise ReplOk ∧
      applyReplacements "zabz" okMap =
        applyReplacements "zabz" okMapSwapped) :=
  ⟨⟨by decide, c7_substitution.1 "no tokens here" okMap (by decide)⟩,
   ⟨by decide, by decide,
    c7_substitution.2 "zabz" okMap okMapSwapped (by decide) (by decide)⟩⟩

end Buildshapeify
